import Mathlib

/-!
# Verification of the RBBI rule builder (`rbbirb.cpp`)

A shallow embedding of `RBBIRuleBuilder` from `icu4c/source/common/rbbirb.cpp`:
the build orchestrator, the table-minimization fixed point (`optimizeTables`),
the binary flattener (`flattenData`), the factory entry point
(`createRuleBasedBreakIterator`), and the constructor/destructor pair.

Machine integers are modelled as `Nat`/`Int`; sizes in a successful compile fit
in an `int32_t`, which the theorems make explicit through bound hypotheses.
Collaborators that live outside this translation unit (the rule scanner, the
set builder, the table builder, and the `RBBIDataHeader` struct layout from
`rbbidata.h`) are modelled from the spec where needed; each such definition
says so in its doc comment.
-/

/-- `U_FAILURE(x)` from `utypes.h`: an ICU status is a failure iff it is
strictly positive (`U_ZERO_ERROR` is 0, warnings are negative). -/
def U_FAILURE (e : Int) : Bool := 0 < e

/-- `U_MEMORY_ALLOCATION_ERROR` (value 7 in `utypes.h`). -/
def U_MEMORY_ALLOCATION_ERROR : Int := 7

/-- `align8` from `rbbirb.cpp` line 133: `(i+7) & 0xfffffff8`, rounding up to a
multiple of 8 (for nonnegative `int32_t` arguments). -/
def align8 (i : Nat) : Nat := (i + 7) &&& 0xfffffff8

/-- Overwrite the bytes of `blob` starting at offset `off` with `bs`
(the model of a `memcpy`-style store into the flattened buffer). -/
def writeBytes (blob : List Nat) (off : Nat) (bs : List Nat) : List Nat :=
  blob.take off ++ bs ++ blob.drop (off + bs.length)

/-- Two's-complement little-endian encoding of an `int32_t` value into 4 bytes
(the byte image of the `ruleStatusTable[i] = ...` stores; host byte order is
modelled as little-endian). -/
def encodeInt32 (v : Int) : List Nat :=
  let u : Nat := (v % 4294967296).toNat
  [u % 256, u / 256 % 256, u / 65536 % 256, u / 16777216 % 256]

/-- Little-endian byte image of one UTF-16 code unit (a `UChar`). -/
def encodeUChar (u : Nat) : List Nat := [u % 256, u / 256 % 256]

/-- Byte image of the status table: each rule-status tag as a fixed-width
`int32_t`, in list order. -/
def statusTableBytes (vals : List Int) : List Nat :=
  (vals.map encodeInt32).flatten

/-- Byte image written by `fStrippedRules.extract(...)`: the stripped rule
text as UTF-16 code units followed by a NUL terminator. -/
def ruleSourceBytes (units : List Nat) : List Nat :=
  ((units ++ [0]).map encodeUChar).flatten

/-- Modelled from the spec: the `RBBIDataHeader` struct of `rbbidata.h` is not
part of the observed source. This structure holds exactly the fields that
`flattenData` assigns: magic, 4-field format version, total length, category
count, and an (offset, length) pair for each of the five sections. -/
structure RBBIDataHeader where
  fMagic : Nat
  fFormatVersion : List Nat
  fLength : Nat
  fCatCount : Nat
  fFTable : Nat
  fFTableLen : Nat
  fRTable : Nat
  fRTableLen : Nat
  fTrie : Nat
  fTrieLen : Nat
  fStatusTable : Nat
  fStatusTableLen : Nat
  fRuleSource : Nat
  fRuleSourceLen : Nat
deriving DecidableEq, Repr

/-- The inputs `flattenData` reads from the builder and its collaborators.

Collaborator-provided values (modelled from the spec, since the scanner, set
builder and table builder are outside the observed source): `tableSize` and
`ftBytes` are `getTableSize()` / `exportTable` output, `safeSize` and
`safeBytes` are `getSafeTableSize()` / `exportSafeTable` output, `trieSize`
and `trieBytes` are `getTrieSize()` / `serializeTrie` output, `catCount` is
`getNumCharCategories()`, `strippedRules` is the UTF-16 result of
`fScanner->stripRules`, and `formatVersion` is `RBBI_DATA_FORMAT_VERSION`.
`hdrSize` is `sizeof(RBBIDataHeader)` and `hdrBytes` the in-memory byte image
of the assigned header struct (compiler-layout dependent, so taken as input).
`mallocOK` tells whether `uprv_malloc` succeeds. -/
structure FlatIn where
  hdrSize : Nat
  hdrBytes : List Nat
  formatVersion : List Nat
  catCount : Nat
  tableSize : Nat
  ftBytes : List Nat
  safeSize : Nat
  safeBytes : List Nat
  trieSize : Nat
  trieBytes : List Nat
  statusVals : List Int
  strippedRules : List Nat
  mallocOK : Bool
deriving Repr

/-- The header field values assigned by `flattenData` (rbbirb.cpp lines
151-192), given the section sizes. -/
def flattenHeader (inp : FlatIn) : RBBIDataHeader :=
  let headerSize := align8 inp.hdrSize
  let forwardTableSize := align8 inp.tableSize
  let reverseTableSize := align8 inp.safeSize
  let trieSize := align8 inp.trieSize
  let statusTableSize := align8 (inp.statusVals.length * 4)
  let rulesSize := align8 ((inp.strippedRules.length + 1) * 2)
  { fMagic := 0xb1a0
    fFormatVersion := inp.formatVersion
    fLength := headerSize + forwardTableSize + reverseTableSize
      + statusTableSize + trieSize + rulesSize
    fCatCount := inp.catCount
    fFTable := headerSize
    fFTableLen := forwardTableSize
    fRTable := headerSize + forwardTableSize
    fRTableLen := reverseTableSize
    fTrie := headerSize + forwardTableSize + reverseTableSize
    fTrieLen := inp.trieSize
    fStatusTable := headerSize + forwardTableSize + reverseTableSize + trieSize
    fStatusTableLen := statusTableSize
    fRuleSource := headerSize + forwardTableSize + reverseTableSize + trieSize
      + statusTableSize
    fRuleSourceLen := inp.strippedRules.length * 2 }

/-- `RBBIRuleBuilder::flattenData()` (rbbirb.cpp lines 135-206): computes the
8-aligned section layout, allocates a zero-filled buffer of the total size,
writes the header image, then the forward table, safe table, trie, status
table and null-terminated stripped rule text at their offsets.  Returns
`(none, status)` when the status is already a failure on entry or when the
allocation fails (setting `U_MEMORY_ALLOCATION_ERROR`); otherwise returns the
header values, the blob bytes, and the unchanged status. -/
def flattenData (inp : FlatIn) (status : Int) :
    Option (RBBIDataHeader × List Nat) × Int :=
  if U_FAILURE status then (none, status)
  else if inp.mallocOK = false then (none, U_MEMORY_ALLOCATION_ERROR)
  else
    let hdr := flattenHeader inp
    let blob0 := List.replicate hdr.fLength 0
    let blob1 := writeBytes blob0 0 inp.hdrBytes
    let blob2 := writeBytes blob1 hdr.fFTable inp.ftBytes
    let blob3 := writeBytes blob2 hdr.fRTable inp.safeBytes
    let blob4 := writeBytes blob3 hdr.fTrie inp.trieBytes
    let blob5 := writeBytes blob4 hdr.fStatusTable (statusTableBytes inp.statusVals)
    let blob6 := writeBytes blob5 hdr.fRuleSource (ruleSourceBytes inp.strippedRules)
    (some (hdr, blob6), status)

/-- A concrete successful-compile input for evaluating `flattenData`:
one rule-status tag, a 4-byte forward table, an 8-byte safe table, a 4-byte
trie, and a one-character stripped rule text. -/
def exFlatIn : FlatIn :=
  { hdrSize := 8
    hdrBytes := [9, 9, 9, 9, 9, 9, 9, 9]
    formatVersion := [3, 1, 0, 0]
    catCount := 5
    tableSize := 4
    ftBytes := [1, 1, 1, 1]
    safeSize := 8
    safeBytes := [2, 2, 2, 2, 2, 2, 2, 2]
    trieSize := 4
    trieBytes := [3, 3, 3, 3]
    statusVals := [1]
    strippedRules := [97]
    mallocOK := true }

/-- Modelled from the spec: one DFA state row of the forward table owned by
the table builder (`rbbitblb`, outside the observed source): the transition
column entries plus the per-state accepting/status link. -/
structure StateRow where
  tran : List Nat
  accepting : Int
deriving DecidableEq, Repr

/-- Modelled from the spec: the forward DFA transition table, a matrix mapping
(state, character-category) to next state.  `numCols` is the current category
count (`getNumCharCategories`). -/
structure MinTable where
  numCols : Nat
  rows : List StateRow
deriving DecidableEq, Repr

/-- Columns `i` and `j` have identical transitions across every state. -/
def colsEqual (t : MinTable) (i j : Nat) : Bool :=
  t.rows.all fun r => decide (r.tran[i]? = r.tran[j]?)

/-- All category pairs `(i, j)` with `start ≤ i < j < numCols`, in
lexicographic order (the nested scan order of the table builder). -/
def duplPairList (t : MinTable) (start : Nat) : List (Nat × Nat) :=
  (List.range t.numCols).flatMap fun i =>
    (List.range t.numCols).flatMap fun j =>
      if start ≤ i ∧ i < j then [(i, j)] else []

/-- Modelled from the spec: `findDuplCharClassFrom` locates the next
duplicate-column pair at/after the given start index, or none. -/
def findDuplCharClassFrom (t : MinTable) (start : Nat) : Option (Nat × Nat) :=
  (duplPairList t start).find? fun p => colsEqual t p.1 p.2

/-- Modelled from the spec: `removeColumn` deletes a column after its category
was merged away; the category count drops by one. -/
def removeColumn (t : MinTable) (j : Nat) : MinTable :=
  { numCols := t.numCols - 1
    rows := t.rows.map fun r => { r with tran := r.tran.eraseIdx j } }

/-- All state pairs `(i, j)` with `i < j < rows.length`, lexicographically. -/
def rowPairList (t : MinTable) : List (Nat × Nat) :=
  (List.range t.rows.length).flatMap fun i =>
    (List.range t.rows.length).flatMap fun j =>
      if i < j then [(i, j)] else []

/-- Modelled from the spec: locate a pair of structurally identical states. -/
def findDuplicateState (t : MinTable) : Option (Nat × Nat) :=
  (rowPairList t).find? fun p => decide (t.rows[p.1]? = t.rows[p.2]?)

/-- Transition-target fixup when state `j` is merged into state `i`:
references to `j` become `i`, and states above `j` shift down by one. -/
def remapTarget (i j e : Nat) : Nat :=
  if e = j then i else if j < e then e - 1 else e

/-- Modelled from the spec: merge state `j` into state `i`: delete row `j`
and remap every transition target. -/
def removeState (t : MinTable) (i j : Nat) : MinTable :=
  { numCols := t.numCols
    rows := (t.rows.eraseIdx j).map fun r =>
      { r with tran := r.tran.map (remapTarget i j) } }

/-- Modelled from the spec: `removeDuplicateStates` repeatedly merges
structurally identical states until none remain and returns how many were
merged.  The fuel argument bounds the loop; `t.rows.length` is always enough
(each merge removes one row). -/
def removeDupStatesAux : Nat → MinTable → MinTable × Nat
  | 0, t => (t, 0)
  | fuel + 1, t =>
    match findDuplicateState t with
    | none => (t, 0)
    | some (i, j) =>
      let r := removeDupStatesAux fuel (removeState t i j)
      (r.1, r.2 + 1)

/-- `removeDuplicateStates()`: one full row-merge pass. -/
def removeDuplicateStates (t : MinTable) : MinTable × Nat :=
  removeDupStatesAux t.rows.length t

/-- The `while (fForwardTable->removeDuplicateStates() > 0)` loop of
`optimizeTables` (rbbirb.cpp lines 319-321); the flag records whether any
call returned a positive count.  Two iterations always suffice because one
call already merges to exhaustion. -/
def rowLoopAux : Nat → MinTable → MinTable × Bool
  | 0, t => (t, false)
  | fuel + 1, t =>
    let r := removeDuplicateStates t
    if r.2 > 0 then
      let s := rowLoopAux fuel r.1
      (s.1, true)
    else (t, false)

def rowLoop (t : MinTable) : MinTable × Bool := rowLoopAux 2 t

/-- The `while (fForwardTable->findDuplCharClassFrom(&duplPair))` loop of
`optimizeTables` (rbbirb.cpp lines 312-317), started from category 3: merge
the found pair (recorded in the returned trace, as passed to
`fSetBuilder->mergeCategories`), remove the duplicate column, and resume the
search at the first index of the pair.  `t.numCols` is always enough fuel. -/
def colLoopAux : Nat → Nat → MinTable → MinTable × List (Nat × Nat)
  | 0, _, t => (t, [])
  | fuel + 1, start, t =>
    match findDuplCharClassFrom t start with
    | none => (t, [])
    | some (i, j) =>
      let r := colLoopAux fuel i (removeColumn t j)
      (r.1, (i, j) :: r.2)

def colLoop (t : MinTable) : MinTable × List (Nat × Nat) := colLoopAux t.numCols 3 t

/-- One body of the outer `do { ... } while (didSomething)` loop of
`optimizeTables` (rbbirb.cpp lines 304-323): column de-duplication first,
then row de-duplication; the Bool is `didSomething`. -/
def optimizePass (t : MinTable) : MinTable × List (Nat × Nat) × Bool :=
  let c := colLoop t
  let r := rowLoop c.1
  (r.1, c.2, !c.2.isEmpty || r.2)

/-- Measure for the outer loop: category count plus state count; every pass
that did something strictly decreases it. -/
def tableMeasure (t : MinTable) : Nat := t.numCols + t.rows.length

/-- The outer do-while loop with fuel (the number of passes still allowed);
`tableMeasure t + 1` passes always suffice.  Returns the final table, the
concatenated trace of category merges, and the number of passes executed. -/
def optLoopAux : Nat → MinTable → MinTable × List (Nat × Nat) × Nat
  | 0, t => (t, [], 0)
  | fuel + 1, t =>
    let p := optimizePass t
    if p.2.2 then
      let r := optLoopAux fuel p.1
      (r.1, p.2.1 ++ r.2.1, r.2.2 + 1)
    else (p.1, p.2.1, 1)

/-- `RBBIRuleBuilder::optimizeTables()`, instrumented to also return the list
of category-merge pairs (in the order they were passed to `mergeCategories`)
and the number of outer passes. -/
def optimizeTables (t : MinTable) : MinTable × List (Nat × Nat) × Nat :=
  optLoopAux (tableMeasure t + 1) t

/-- The output of `build()`: the blob (if any), the final status, and the
list of status values observed at each executed pipeline step (for stating
fail-stop propagation). -/
structure BuildOut where
  result : Option (RBBIDataHeader × List Nat)
  status : Int
  statusTrace : List Int
deriving Repr

/-- Modelled from the spec: the status effects of the collaborator calls made
by `build()` (scanner parse, set-builder ranges/trie, table-builder forward
and safe-reverse construction), the table-builder allocation outcome, and the
collaborator data that `flattenData` will read. -/
structure BuildEnv where
  parseEff : Int → Int
  buildRangesEff : Int → Int
  tableBuilderAlloc : Bool
  buildForwardEff : Int → Int
  safeRevEff : Int → Int
  buildTrieEff : Int → Int
  flatIn : FlatIn

/-- The spec's fail-stop discipline (§5): every collaborator, observing a
failure status on entry, performs no work, so its status effect preserves
failure. -/
def FailPreserving (env : BuildEnv) : Prop :=
  (∀ s, U_FAILURE s = true → U_FAILURE (env.parseEff s) = true)
  ∧ (∀ s, U_FAILURE s = true → U_FAILURE (env.buildRangesEff s) = true)
  ∧ (∀ s, U_FAILURE s = true → U_FAILURE (env.buildForwardEff s) = true)
  ∧ (∀ s, U_FAILURE s = true → U_FAILURE (env.safeRevEff s) = true)
  ∧ (∀ s, U_FAILURE s = true → U_FAILURE (env.buildTrieEff s) = true)

/-- `RBBIRuleBuilder::build(status)` (rbbirb.cpp lines 251-302): early return
on a failure status; `parse()` then a failure check; `buildRanges()`; the
table-builder allocation with its null check; forward-table construction,
`optimizeTables()` (a pure table transformation, no status interaction),
safe-reverse-table and trie construction with no intermediate status checks;
then `flattenData()` and the final failure check. -/
def build (env : BuildEnv) (status : Int) : BuildOut :=
  if U_FAILURE status then ⟨none, status, [status]⟩
  else
    let s1 := env.parseEff status
    if U_FAILURE s1 then ⟨none, s1, [status, s1]⟩
    else
      let s2 := env.buildRangesEff s1
      if env.tableBuilderAlloc = false then
        ⟨none, U_MEMORY_ALLOCATION_ERROR, [status, s1, s2]⟩
      else
        let s3 := env.buildForwardEff s2
        let s4 := env.safeRevEff s3
        let s5 := env.buildTrieEff s4
        let f := flattenData env.flatIn s5
        if U_FAILURE f.2 then ⟨none, f.2, [status, s1, s2, s3, s4, s5, f.2]⟩
        else ⟨f.1, f.2, [status, s1, s2, s3, s4, s5, f.2]⟩

/-- `UParseError` (from `parseerr.h`): line, offset and two 16-`UChar`
context fields. -/
structure UParseError where
  line : Int
  offset : Int
  preContext : List Nat
  postContext : List Nat
deriving DecidableEq, Repr

/-- The all-zero descriptor produced by `uprv_memset(parseErr, 0,
sizeof(UParseError))`. -/
def emptyParseError : UParseError :=
  { line := 0, offset := 0
    preContext := List.replicate 16 0, postContext := List.replicate 16 0 }

/-- Modelled from the spec: allocation outcomes of the four structures the
constructor creates, and the status effects of the two `new UVector(status)`
calls. -/
structure CtorEnv where
  usetNodesAlloc : Bool
  ruleStatusValsAlloc : Bool
  scannerAlloc : Bool
  setBuilderAlloc : Bool
  uvecEff1 : Int → Int
  uvecEff2 : Int → Int

/-- The owning pointer fields of `RBBIRuleBuilder`; `none` models a null
pointer. -/
structure BuilderState where
  fForwardTree : Option Unit
  fReverseTree : Option Unit
  fSafeFwdTree : Option Unit
  fSafeRevTree : Option Unit
  fForwardTable : Option Unit
  fUSetNodes : Option (List Unit)
  fRuleStatusVals : Option (List Int)
  fScanner : Option Unit
  fSetBuilder : Option Unit
deriving DecidableEq, Repr

/-- The field state right after the null-initialisation block of the
constructor (rbbirb.cpp lines 60-72). -/
def emptyBuilderState : BuilderState :=
  { fForwardTree := none, fReverseTree := none, fSafeFwdTree := none
    fSafeRevTree := none, fForwardTable := none, fUSetNodes := none
    fRuleStatusVals := none, fScanner := none, fSetBuilder := none }

/-- `RBBIRuleBuilder::RBBIRuleBuilder` (rbbirb.cpp lines 47-91): null all
pointer fields, zero-fill the caller's parse-error descriptor if present,
return early when the status is already a failure, otherwise allocate the
two `UVector`s (whose constructors may write the status), the scanner and
the set builder, then check the status and the four pointers. -/
def rbbiRuleBuilderCtor (env : CtorEnv) (parseErr : Option UParseError)
    (status : Int) : BuilderState × Option UParseError × Int :=
  let pe := parseErr.map fun _ => emptyParseError
  if U_FAILURE status then (emptyBuilderState, pe, status)
  else
    let s1 := if env.usetNodesAlloc then env.uvecEff1 status else status
    let s2 := if env.ruleStatusValsAlloc then env.uvecEff2 s1 else s1
    let b := { emptyBuilderState with
      fUSetNodes := if env.usetNodesAlloc then some [] else none
      fRuleStatusVals := if env.ruleStatusValsAlloc then some [] else none
      fScanner := if env.scannerAlloc then some () else none
      fSetBuilder := if env.setBuilderAlloc then some () else none }
    if U_FAILURE s2 then (b, pe, s2)
    else if b.fSetBuilder = none ∨ b.fScanner = none ∨ b.fUSetNodes = none
        ∨ b.fRuleStatusVals = none then
      (b, pe, U_MEMORY_ALLOCATION_ERROR)
    else (b, pe, s2)

/-- `RBBIRuleBuilder::~RBBIRuleBuilder()` (rbbirb.cpp lines 100-120): the
first loop reads `fUSetNodes->elementAt(i)` with no null check, so if
`fUSetNodes` was never allocated the teardown dereferences a null pointer,
which the model reports as `none`; with `fUSetNodes` allocated the loop
terminates at the first null element and all the `delete` statements are safe
on null pointers, reported as `some ()`. -/
def rbbiRuleBuilderDtor (b : BuilderState) : Option Unit :=
  match b.fUSetNodes with
  | none => none
  | some _ => some ()

/-- Modelled from the spec: the collaborator behaviour of one factory call —
the constructor's environment, the build environment, the
`RuleBasedBreakIterator` allocation outcome and its constructor's status
effect. -/
structure FactoryEnv where
  ctorEnv : CtorEnv
  buildEnv : BuildEnv
  matcherAlloc : Bool
  matcherEff : Int → Int

/-- `RBBIRuleBuilder::createRuleBasedBreakIterator` (rbbirb.cpp lines
215-249): construct the builder and check the status; run `build` and check
the status; construct the matcher (`new RuleBasedBreakIterator(data,
status)`); if that set a failure, delete the half-built matcher and return
null with that failure; if the allocation itself returned null, report
`U_MEMORY_ALLOCATION_ERROR`; otherwise return the matcher. -/
def createRuleBasedBreakIterator (env : FactoryEnv)
    (parseErr : Option UParseError) (status : Int) : Option Unit × Int :=
  let c := rbbiRuleBuilderCtor env.ctorEnv parseErr status
  if U_FAILURE c.2.2 then (none, c.2.2)
  else
    let b := build env.buildEnv c.2.2
    if U_FAILURE b.status then (none, b.status)
    else
      let s3 := if env.matcherAlloc then env.matcherEff b.status else b.status
      if U_FAILURE s3 then (none, s3)
      else if env.matcherAlloc = false then (none, U_MEMORY_ALLOCATION_ERROR)
      else (some (), s3)

/-- A concrete minimization input: 6 categories, 2 states, with columns 3 and
4 identical (so exactly one category merge happens). -/
def exTable : MinTable :=
  { numCols := 6
    rows := [ { tran := [0, 1, 2, 3, 3, 5], accepting := 0 }
            , { tran := [0, 1, 2, 4, 4, 5], accepting := 1 } ] }

/-- A concrete well-behaved collaborator environment. -/
def exBuildEnv : BuildEnv :=
  { parseEff := fun s => s, buildRangesEff := fun s => s
    tableBuilderAlloc := true, buildForwardEff := fun s => s
    safeRevEff := fun s => s, buildTrieEff := fun s => s
    flatIn := exFlatIn }

/-- A concrete constructor environment where every allocation succeeds and
the `UVector` constructors leave the status unchanged. -/
def exCtorEnv : CtorEnv :=
  { usetNodesAlloc := true, ruleStatusValsAlloc := true, scannerAlloc := true
    setBuilderAlloc := true, uvecEff1 := fun s => s, uvecEff2 := fun s => s }

/-- A concrete factory environment whose scanner reports a rule-syntax
failure (`parse()` sets status 1). -/
def exFailEnv : FactoryEnv :=
  { ctorEnv := exCtorEnv
    buildEnv := { exBuildEnv with parseEff := fun _ => 1 }
    matcherAlloc := true
    matcherEff := fun s => s }

/-- Bit-level characterisation of the mask: for arguments below `2^32`,
`x &&& 0xfffffff8` clears the low three bits. -/
theorem land_mask_eq (x : Nat) (hx : x < 2 ^ 32) :
    x &&& 0xfffffff8 = 8 * (x / 8) := by
  have hrhs : 8 * (x / 8) = (x >>> 3) <<< 3 := by
    rw [Nat.shiftLeft_eq, Nat.shiftRight_eq_div_pow]
    norm_num [Nat.mul_comm]
  rw [hrhs]
  apply Nat.eq_of_testBit_eq
  intro i
  rw [Nat.testBit_land, Nat.testBit_shiftLeft]
  rcases Nat.lt_or_ge i 3 with h3 | h3
  · have hmask : Nat.testBit 0xfffffff8 i = false := by
      interval_cases i <;> decide
    have hge : ¬ 3 ≤ i := by omega
    simp [hmask, hge]
  · rcases Nat.lt_or_ge i 32 with h32 | h32
    · have hmask : Nat.testBit 0xfffffff8 i = true := by
        interval_cases i <;> decide
      have hsub : 3 + (i - 3) = i := by omega
      rw [hmask, Nat.testBit_shiftRight, hsub]
      simp [Nat.le_of_lt_succ, h3]
    · have hxbit : Nat.testBit x i = false :=
        Nat.testBit_lt_two_pow (lt_of_lt_of_le hx (Nat.pow_le_pow_right (by norm_num) h32))
      have hxbit2 : Nat.testBit (x >>> 3) (i - 3) = false := by
        rw [Nat.testBit_shiftRight]
        have : 3 + (i - 3) = i := by omega
        rw [this, hxbit]
      simp [hxbit, hxbit2]

/-- For in-range sizes, `align8` is rounding up to the next multiple of 8. -/
theorem align8_eq (i : Nat) (h : i + 7 < 2 ^ 32) :
    align8 i = 8 * ((i + 7) / 8) := by
  unfold align8
  exact land_mask_eq (i + 7) h

/-- `align8` never shrinks its in-range argument. -/
theorem le_align8 (i : Nat) (h : i + 7 < 2 ^ 32) : i ≤ align8 i := by
  rw [align8_eq i h]; omega

/-- `align8` of an in-range size is a multiple of 8. -/
theorem align8_mod8 (i : Nat) (h : i + 7 < 2 ^ 32) : align8 i % 8 = 0 := by
  rw [align8_eq i h]; omega

/-- `align8` adds less than 8. -/
theorem align8_lt (i : Nat) (h : i + 7 < 2 ^ 32) : align8 i < i + 8 := by
  rw [align8_eq i h]; omega

theorem writeBytes_length (blob bs : List Nat) (off : Nat)
    (h : off + bs.length ≤ blob.length) :
    (writeBytes blob off bs).length = blob.length := by
  simp [writeBytes]
  omega

/-- A store does not touch positions strictly before its offset. -/
theorem writeBytes_getElem_lt (blob bs : List Nat) (off p : Nat)
    (hoff : off ≤ blob.length) (hp : p < off) :
    (writeBytes blob off bs)[p]? = blob[p]? := by
  unfold writeBytes
  have h1 : p < (blob.take off ++ bs).length := by simp; omega
  have h2 : p < (blob.take off).length := by simp; omega
  rw [List.getElem?_append_left h1, List.getElem?_append_left h2,
    List.getElem?_take_of_lt hp]

/-- A store does not touch positions at or past its end. -/
theorem writeBytes_getElem_ge (blob bs : List Nat) (off p : Nat)
    (hoff : off ≤ blob.length) (hp : off + bs.length ≤ p) :
    (writeBytes blob off bs)[p]? = blob[p]? := by
  unfold writeBytes
  have htake : (blob.take off).length = off := by simp; omega
  have h1 : (blob.take off ++ bs).length ≤ p := by simp; omega
  rw [List.getElem?_append_right h1, List.getElem?_drop]
  congr 1
  simp
  omega

theorem statusTableBytes_length (vals : List Int) :
    (statusTableBytes vals).length = 4 * vals.length := by
  induction vals with
  | nil => rfl
  | cons v vs ih =>
    simp only [statusTableBytes, List.map_cons, List.flatten_cons] at *
    simp [encodeInt32, ih]
    omega

theorem ruleSourceBytes_length (units : List Nat) :
    (ruleSourceBytes units).length = 2 * (units.length + 1) := by
  unfold ruleSourceBytes
  induction units with
  | nil => rfl
  | cons u us ih =>
    simp only [List.cons_append, List.map_cons, List.flatten_cons] at *
    simp [encodeUChar] at *
    omega

/-- C1 (counterexample): on a successful compile with exactly one rule-status
tag, the header's declared status-table byte length is `align8(4·1) = 8`, not
`4·1 = 4`: the stored forward-table, safe-table and status-table lengths are
the padded sizes, so the claim that every stored length is the unpadded byte
length is false. -/
theorem flattenData_statusTableLen_counterexample :
    ((flattenData exFlatIn 0).1.map fun p => p.1.fStatusTableLen) = some 8
    ∧ 4 * exFlatIn.statusVals.length = 4 ∧ (8 : Nat) ≠ 4 := by
  decide

/-- C1 (amended): on every successful compile the header stores unpadded byte
lengths only for the trie and rule-source sections; the forward-table,
safe-table and status-table stored lengths are the 8-aligned padded sizes, and
in particular the declared status-table byte length is `align8` of 4 times
the number of rule-status tags. -/
theorem flattenData_sectionLengths (inp : FlatIn) (st : Int)
    (hdr : RBBIDataHeader)
    (h : (flattenData inp st).1.map Prod.fst = some hdr) :
    hdr.fFTableLen = align8 inp.tableSize
    ∧ hdr.fRTableLen = align8 inp.safeSize
    ∧ hdr.fTrieLen = inp.trieSize
    ∧ hdr.fStatusTableLen = align8 (4 * inp.statusVals.length)
    ∧ hdr.fRuleSourceLen = 2 * inp.strippedRules.length := by
  unfold flattenData at h
  split at h
  · simp at h
  · split at h
    · simp at h
    · simp only [Option.map_some', Option.some.injEq] at h
      subst h
      refine ⟨rfl, rfl, rfl, ?_, ?_⟩
      · simp only [flattenHeader, Nat.mul_comm]
      · simp only [flattenHeader, Nat.mul_comm]

/-- Witness for `flattenData_sectionLengths` at the concrete input. -/
theorem flattenData_sectionLengths_witness :
    (flattenHeader exFlatIn).fFTableLen = align8 exFlatIn.tableSize
    ∧ (flattenHeader exFlatIn).fRTableLen = align8 exFlatIn.safeSize
    ∧ (flattenHeader exFlatIn).fTrieLen = exFlatIn.trieSize
    ∧ (flattenHeader exFlatIn).fStatusTableLen
        = align8 (4 * exFlatIn.statusVals.length)
    ∧ (flattenHeader exFlatIn).fRuleSourceLen
        = 2 * exFlatIn.strippedRules.length :=
  flattenData_sectionLengths exFlatIn 0 (flattenHeader exFlatIn) (by decide)

/-- C2: on every successful compile (with sizes in `int32_t` range), the
declared total length is the 8-aligned header size plus the five 8-aligned
section sizes, every section start offset is a multiple of 8, and every
declared section length fits inside its allocated padded region. -/
theorem flattenData_alignment (inp : FlatIn) (st : Int) (hdr : RBBIDataHeader)
    (hb : inp.hdrSize ≤ 2 ^ 28 ∧ inp.tableSize ≤ 2 ^ 28 ∧ inp.safeSize ≤ 2 ^ 28
      ∧ inp.trieSize ≤ 2 ^ 28 ∧ inp.statusVals.length ≤ 2 ^ 26
      ∧ inp.strippedRules.length ≤ 2 ^ 26)
    (h : (flattenData inp st).1.map Prod.fst = some hdr) :
    hdr.fLength = align8 inp.hdrSize + align8 inp.tableSize + align8 inp.safeSize
      + align8 (inp.statusVals.length * 4) + align8 inp.trieSize
      + align8 ((inp.strippedRules.length + 1) * 2)
    ∧ hdr.fFTable % 8 = 0 ∧ hdr.fRTable % 8 = 0 ∧ hdr.fTrie % 8 = 0
    ∧ hdr.fStatusTable % 8 = 0 ∧ hdr.fRuleSource % 8 = 0
    ∧ hdr.fFTableLen ≤ align8 inp.tableSize
    ∧ hdr.fRTableLen ≤ align8 inp.safeSize
    ∧ hdr.fTrieLen ≤ align8 inp.trieSize
    ∧ hdr.fStatusTableLen ≤ align8 (inp.statusVals.length * 4)
    ∧ hdr.fRuleSourceLen ≤ align8 ((inp.strippedRules.length + 1) * 2) := by
  obtain ⟨b1, b2, b3, b4, b5, b6⟩ := hb
  have m1 := align8_mod8 inp.hdrSize (by omega)
  have m2 := align8_mod8 inp.tableSize (by omega)
  have m3 := align8_mod8 inp.safeSize (by omega)
  have m4 := align8_mod8 inp.trieSize (by omega)
  have m5 := align8_mod8 (inp.statusVals.length * 4) (by omega)
  have l4 := le_align8 inp.trieSize (by omega)
  have l5 := le_align8 (inp.statusVals.length * 4) (by omega)
  have l6 := le_align8 ((inp.strippedRules.length + 1) * 2) (by omega)
  unfold flattenData at h
  split at h
  · simp at h
  · split at h
    · simp at h
    · simp only [Option.map_some', Option.some.injEq] at h
      subst h
      simp only [flattenHeader]
      refine ⟨trivial, by omega, by omega, by omega, by omega, by omega,
        le_refl _, le_refl _, l4, le_refl _, by omega⟩

/-- Witness for `flattenData_alignment` at the concrete input. -/
theorem flattenData_alignment_witness :
    (flattenHeader exFlatIn).fLength = align8 exFlatIn.hdrSize
      + align8 exFlatIn.tableSize + align8 exFlatIn.safeSize
      + align8 (exFlatIn.statusVals.length * 4) + align8 exFlatIn.trieSize
      + align8 ((exFlatIn.strippedRules.length + 1) * 2)
    ∧ (flattenHeader exFlatIn).fFTable % 8 = 0
    ∧ (flattenHeader exFlatIn).fRTable % 8 = 0
    ∧ (flattenHeader exFlatIn).fTrie % 8 = 0
    ∧ (flattenHeader exFlatIn).fStatusTable % 8 = 0
    ∧ (flattenHeader exFlatIn).fRuleSource % 8 = 0
    ∧ (flattenHeader exFlatIn).fFTableLen ≤ align8 exFlatIn.tableSize
    ∧ (flattenHeader exFlatIn).fRTableLen ≤ align8 exFlatIn.safeSize
    ∧ (flattenHeader exFlatIn).fTrieLen ≤ align8 exFlatIn.trieSize
    ∧ (flattenHeader exFlatIn).fStatusTableLen
        ≤ align8 (exFlatIn.statusVals.length * 4)
    ∧ (flattenHeader exFlatIn).fRuleSourceLen
        ≤ align8 ((exFlatIn.strippedRules.length + 1) * 2) :=
  flattenData_alignment exFlatIn 0 (flattenHeader exFlatIn) (by decide) (by decide)

/-- Relative layout of the six stores `flattenData` performs into the
zero-filled buffer: any position `p` lying strictly between one section's
logical end and the next section's start is untouched by every store and so
keeps its zero fill.  `H F R T S U` are the padded region sizes, the other
naturals the unpadded (written) lengths. -/
theorem writeChain_gap_zero
    (H F R T S U hdrSize tableSize safeSize trieSize stLen : Nat)
    (hdrB ftB safeB trieB stB ruB : List Nat) (p : Nat)
    (lh : hdrB.length = hdrSize) (lf : ftB.length = tableSize)
    (ls : safeB.length = safeSize) (ltr : trieB.length = trieSize)
    (lst : stB.length = stLen)
    (hH : hdrSize ≤ H) (hF : tableSize ≤ F) (hR : safeSize ≤ R)
    (hT : trieSize ≤ T) (hS : stLen ≤ S) (hU : ruB.length ≤ U)
    (hgap : (H + tableSize ≤ p ∧ p < H + F)
      ∨ (H + F + safeSize ≤ p ∧ p < H + F + R)
      ∨ (H + F + R + trieSize ≤ p ∧ p < H + F + R + T)
      ∨ (H + F + R + T + stLen ≤ p ∧ p < H + F + R + T + S)) :
    (writeBytes (writeBytes (writeBytes (writeBytes (writeBytes (writeBytes
        (List.replicate (H + F + R + S + T + U) 0) 0 hdrB)
        H ftB) (H + F) safeB) (H + F + R) trieB)
        (H + F + R + T) stB) (H + F + R + T + S) ruB)[p]? = some 0 := by
  set b0 : List Nat := List.replicate (H + F + R + S + T + U) 0 with hb0
  set b1 := writeBytes b0 0 hdrB with hb1
  set b2 := writeBytes b1 H ftB with hb2
  set b3 := writeBytes b2 (H + F) safeB with hb3
  set b4 := writeBytes b3 (H + F + R) trieB with hb4
  set b5 := writeBytes b4 (H + F + R + T) stB with hb5
  have L0 : b0.length = H + F + R + S + T + U := by
    rw [hb0, List.length_replicate]
  have L1 : b1.length = H + F + R + S + T + U := by
    rw [hb1, writeBytes_length b0 hdrB 0 (by rw [L0, lh]; omega), L0]
  have L2 : b2.length = H + F + R + S + T + U := by
    rw [hb2, writeBytes_length b1 ftB H (by rw [L1, lf]; omega), L1]
  have L3 : b3.length = H + F + R + S + T + U := by
    rw [hb3, writeBytes_length b2 safeB (H + F) (by rw [L2, ls]; omega), L2]
  have L4 : b4.length = H + F + R + S + T + U := by
    rw [hb4, writeBytes_length b3 trieB (H + F + R) (by rw [L3, ltr]; omega), L3]
  have L5 : b5.length = H + F + R + S + T + U := by
    rw [hb5, writeBytes_length b4 stB (H + F + R + T) (by rw [L4, lst]; omega), L4]
  rcases hgap with ⟨h1, h2⟩ | ⟨h1, h2⟩ | ⟨h1, h2⟩ | ⟨h1, h2⟩
  · rw [writeBytes_getElem_lt b5 ruB (H + F + R + T + S) p (by rw [L5]; omega) (by omega),
      hb5, writeBytes_getElem_lt b4 stB (H + F + R + T) p (by rw [L4]; omega) (by omega),
      hb4, writeBytes_getElem_lt b3 trieB (H + F + R) p (by rw [L3]; omega) (by omega),
      hb3, writeBytes_getElem_lt b2 safeB (H + F) p (by rw [L2]; omega) (by omega),
      hb2, writeBytes_getElem_ge b1 ftB H p (by rw [L1]; omega) (by rw [lf]; omega),
      hb1, writeBytes_getElem_ge b0 hdrB 0 p (by rw [L0]; omega) (by rw [lh]; omega),
      hb0, List.getElem?_replicate, if_pos (show p < H + F + R + S + T + U by omega)]
  · rw [writeBytes_getElem_lt b5 ruB (H + F + R + T + S) p (by rw [L5]; omega) (by omega),
      hb5, writeBytes_getElem_lt b4 stB (H + F + R + T) p (by rw [L4]; omega) (by omega),
      hb4, writeBytes_getElem_lt b3 trieB (H + F + R) p (by rw [L3]; omega) (by omega),
      hb3, writeBytes_getElem_ge b2 safeB (H + F) p (by rw [L2]; omega) (by rw [ls]; omega),
      hb2, writeBytes_getElem_ge b1 ftB H p (by rw [L1]; omega) (by rw [lf]; omega),
      hb1, writeBytes_getElem_ge b0 hdrB 0 p (by rw [L0]; omega) (by rw [lh]; omega),
      hb0, List.getElem?_replicate, if_pos (show p < H + F + R + S + T + U by omega)]
  · rw [writeBytes_getElem_lt b5 ruB (H + F + R + T + S) p (by rw [L5]; omega) (by omega),
      hb5, writeBytes_getElem_lt b4 stB (H + F + R + T) p (by rw [L4]; omega) (by omega),
      hb4, writeBytes_getElem_ge b3 trieB (H + F + R) p (by rw [L3]; omega) (by rw [ltr]; omega),
      hb3, writeBytes_getElem_ge b2 safeB (H + F) p (by rw [L2]; omega) (by rw [ls]; omega),
      hb2, writeBytes_getElem_ge b1 ftB H p (by rw [L1]; omega) (by rw [lf]; omega),
      hb1, writeBytes_getElem_ge b0 hdrB 0 p (by rw [L0]; omega) (by rw [lh]; omega),
      hb0, List.getElem?_replicate, if_pos (show p < H + F + R + S + T + U by omega)]
  · rw [writeBytes_getElem_lt b5 ruB (H + F + R + T + S) p (by rw [L5]; omega) (by omega),
      hb5, writeBytes_getElem_ge b4 stB (H + F + R + T) p (by rw [L4]; omega) (by rw [lst]; omega),
      hb4, writeBytes_getElem_ge b3 trieB (H + F + R) p (by rw [L3]; omega) (by rw [ltr]; omega),
      hb3, writeBytes_getElem_ge b2 safeB (H + F) p (by rw [L2]; omega) (by rw [ls]; omega),
      hb2, writeBytes_getElem_ge b1 ftB H p (by rw [L1]; omega) (by rw [lf]; omega),
      hb1, writeBytes_getElem_ge b0 hdrB 0 p (by rw [L0]; omega) (by rw [lh]; omega),
      hb0, List.getElem?_replicate, if_pos (show p < H + F + R + S + T + U by omega)]

/-- C3: `flattenData` zero-initializes the whole allocated blob (the buffer
starts as `List.replicate totalSize 0`) before writing the header or any
section, so on a successful compile every padding byte lying strictly between
one section's logical end and the next section's start is zero in the
returned blob. -/
theorem flattenData_padding_zero (inp : FlatIn) (st : Int) (p : Nat)
    (hst : U_FAILURE st = false) (hm : inp.mallocOK = true)
    (hlens : inp.hdrBytes.length = inp.hdrSize
      ∧ inp.ftBytes.length = inp.tableSize
      ∧ inp.safeBytes.length = inp.safeSize
      ∧ inp.trieBytes.length = inp.trieSize)
    (hb : inp.hdrSize ≤ 2 ^ 28 ∧ inp.tableSize ≤ 2 ^ 28 ∧ inp.safeSize ≤ 2 ^ 28
      ∧ inp.trieSize ≤ 2 ^ 28 ∧ inp.statusVals.length ≤ 2 ^ 26
      ∧ inp.strippedRules.length ≤ 2 ^ 26)
    (hgap : ((flattenHeader inp).fFTable + inp.tableSize ≤ p
        ∧ p < (flattenHeader inp).fRTable)
      ∨ ((flattenHeader inp).fRTable + inp.safeSize ≤ p
        ∧ p < (flattenHeader inp).fTrie)
      ∨ ((flattenHeader inp).fTrie + inp.trieSize ≤ p
        ∧ p < (flattenHeader inp).fStatusTable)
      ∨ ((flattenHeader inp).fStatusTable + 4 * inp.statusVals.length ≤ p
        ∧ p < (flattenHeader inp).fRuleSource)) :
    (flattenData inp st).1.map (fun pr => pr.2[p]?) = some (some 0) := by
  obtain ⟨e1, e2, e3, e4⟩ := hlens
  obtain ⟨c1, c2, c3, c4, c5, c6⟩ := hb
  have hH := le_align8 inp.hdrSize (by omega)
  have hF := le_align8 inp.tableSize (by omega)
  have hR := le_align8 inp.safeSize (by omega)
  have hT := le_align8 inp.trieSize (by omega)
  have hS := le_align8 (inp.statusVals.length * 4) (by omega)
  have hU := le_align8 ((inp.strippedRules.length + 1) * 2) (by omega)
  simp only [flattenData, hst, Bool.false_eq_true, if_false, hm, Bool.true_eq_false,
    reduceIte, Option.map_some', Option.some.injEq]
  exact writeChain_gap_zero
    (align8 inp.hdrSize) (align8 inp.tableSize) (align8 inp.safeSize)
    (align8 inp.trieSize) (align8 (inp.statusVals.length * 4))
    (align8 ((inp.strippedRules.length + 1) * 2))
    inp.hdrSize inp.tableSize inp.safeSize inp.trieSize
    (4 * inp.statusVals.length)
    inp.hdrBytes inp.ftBytes inp.safeBytes inp.trieBytes
    (statusTableBytes inp.statusVals) (ruleSourceBytes inp.strippedRules) p
    e1 e2 e3 e4 (statusTableBytes_length inp.statusVals)
    hH hF hR hT (by omega) (by rw [ruleSourceBytes_length]; omega)
    hgap

/-- Witness: position 12 lies in the padding between the forward table's
logical end (offset 8 + 4 bytes) and the safe table's start (offset 16) of the
concrete blob, and holds a zero byte. -/
theorem flattenData_padding_zero_witness :
    (flattenData exFlatIn 0).1.map (fun pr => pr.2[12]?) = some (some 0) :=
  flattenData_padding_zero exFlatIn 0 12 (by decide) (by decide)
    (by decide) (by decide) (Or.inl ⟨by decide, by decide⟩)

theorem mem_duplPairList (t : MinTable) (start i j : Nat) :
    (i, j) ∈ duplPairList t start ↔ start ≤ i ∧ i < j ∧ j < t.numCols := by
  unfold duplPairList
  rw [List.mem_flatMap]
  constructor
  · rintro ⟨a, ha, hmem⟩
    rw [List.mem_flatMap] at hmem
    obtain ⟨b, hb, hmem2⟩ := hmem
    rw [List.mem_range] at ha hb
    split at hmem2
    · rename_i hc
      simp only [List.mem_singleton, Prod.mk.injEq] at hmem2
      obtain ⟨rfl, rfl⟩ := hmem2
      exact ⟨hc.1, hc.2, hb⟩
    · simp at hmem2
  · rintro ⟨h1, h2, h3⟩
    refine ⟨i, by rw [List.mem_range]; omega, ?_⟩
    rw [List.mem_flatMap]
    refine ⟨j, by rw [List.mem_range]; omega, ?_⟩
    rw [if_pos ⟨h1, h2⟩]
    simp

theorem mem_rowPairList (t : MinTable) (i j : Nat) :
    (i, j) ∈ rowPairList t ↔ i < j ∧ j < t.rows.length := by
  unfold rowPairList
  rw [List.mem_flatMap]
  constructor
  · rintro ⟨a, ha, hmem⟩
    rw [List.mem_flatMap] at hmem
    obtain ⟨b, hb, hmem2⟩ := hmem
    rw [List.mem_range] at ha hb
    split at hmem2
    · rename_i hc
      simp only [List.mem_singleton, Prod.mk.injEq] at hmem2
      obtain ⟨rfl, rfl⟩ := hmem2
      exact ⟨hc, hb⟩
    · simp at hmem2
  · rintro ⟨h1, h2⟩
    refine ⟨i, by rw [List.mem_range]; omega, ?_⟩
    rw [List.mem_flatMap]
    refine ⟨j, by rw [List.mem_range]; omega, ?_⟩
    rw [if_pos h1]
    simp

theorem findDuplCharClassFrom_some (t : MinTable) (start i j : Nat)
    (h : findDuplCharClassFrom t start = some (i, j)) :
    start ≤ i ∧ i < j ∧ j < t.numCols ∧ colsEqual t i j = true := by
  unfold findDuplCharClassFrom at h
  have hmem := List.mem_of_find?_eq_some h
  have hpred := List.find?_some h
  rw [mem_duplPairList] at hmem
  exact ⟨hmem.1, hmem.2.1, hmem.2.2, hpred⟩

theorem findDuplCharClassFrom_none (t : MinTable) (start : Nat)
    (h : findDuplCharClassFrom t start = none) (i j : Nat)
    (h1 : start ≤ i) (h2 : i < j) (h3 : j < t.numCols) :
    colsEqual t i j = false := by
  unfold findDuplCharClassFrom at h
  rw [List.find?_eq_none] at h
  have := h (i, j) ((mem_duplPairList t start i j).mpr ⟨h1, h2, h3⟩)
  simpa using this

theorem findDuplCharClassFrom_zero_cols (t : MinTable) (start : Nat)
    (h : t.numCols = 0) : findDuplCharClassFrom t start = none := by
  simp [findDuplCharClassFrom, duplPairList, h]

theorem findDuplicateState_some (t : MinTable) (i j : Nat)
    (h : findDuplicateState t = some (i, j)) :
    i < j ∧ j < t.rows.length ∧ t.rows[i]? = t.rows[j]? := by
  unfold findDuplicateState at h
  have hmem := List.mem_of_find?_eq_some h
  have hpred := List.find?_some h
  rw [mem_rowPairList] at hmem
  exact ⟨hmem.1, hmem.2, by simpa using hpred⟩

theorem findDuplicateState_zero_rows (t : MinTable)
    (h : t.rows.length = 0) : findDuplicateState t = none := by
  simp [findDuplicateState, rowPairList, h]

theorem removeState_rows_length (t : MinTable) (i j : Nat)
    (hj : j < t.rows.length) :
    (removeState t i j).rows.length = t.rows.length - 1 := by
  simp [removeState, List.length_eraseIdx, hj]

theorem removeState_numCols (t : MinTable) (i j : Nat) :
    (removeState t i j).numCols = t.numCols := rfl

theorem removeColumn_rows_length (t : MinTable) (j : Nat) :
    (removeColumn t j).rows.length = t.rows.length := by
  simp [removeColumn]

theorem removeDupStatesAux_numCols (fuel : Nat) (t : MinTable) :
    (removeDupStatesAux fuel t).1.numCols = t.numCols := by
  induction fuel generalizing t with
  | zero => rfl
  | succ f ih =>
    cases hf : findDuplicateState t with
    | none => simp [removeDupStatesAux, hf]
    | some p =>
      cases p with
      | mk i j =>
        simp only [removeDupStatesAux, hf]
        rw [ih]
        rfl

theorem removeDupStatesAux_rows (fuel : Nat) (t : MinTable) :
    (removeDupStatesAux fuel t).1.rows.length + (removeDupStatesAux fuel t).2
      = t.rows.length := by
  induction fuel generalizing t with
  | zero => rfl
  | succ f ih =>
    cases hf : findDuplicateState t with
    | none => simp [removeDupStatesAux, hf]
    | some p =>
      cases p with
      | mk i j =>
        have hj := (findDuplicateState_some t i j hf).2.1
        simp only [removeDupStatesAux, hf]
        have := ih (removeState t i j)
        rw [removeState_rows_length t i j hj] at this
        omega

theorem removeDupStatesAux_fixed (fuel : Nat) (t : MinTable)
    (hfuel : t.rows.length ≤ fuel) :
    findDuplicateState (removeDupStatesAux fuel t).1 = none := by
  induction fuel generalizing t with
  | zero =>
    exact findDuplicateState_zero_rows t (by omega)
  | succ f ih =>
    cases hf : findDuplicateState t with
    | none => simp [removeDupStatesAux, hf]
    | some p =>
      cases p with
      | mk i j =>
        have hj := (findDuplicateState_some t i j hf).2.1
        simp only [removeDupStatesAux, hf]
        exact ih (removeState t i j) (by rw [removeState_rows_length t i j hj]; omega)

theorem removeDupStatesAux_count_zero (fuel : Nat) (t : MinTable)
    (h : (removeDupStatesAux fuel t).2 = 0) :
    (removeDupStatesAux fuel t).1 = t := by
  cases fuel with
  | zero => rfl
  | succ f =>
    cases hf : findDuplicateState t with
    | none => simp [removeDupStatesAux, hf]
    | some p =>
      cases p with
      | mk i j =>
        simp [removeDupStatesAux, hf] at h

theorem removeDuplicateStates_fixed (t : MinTable) :
    findDuplicateState (removeDuplicateStates t).1 = none :=
  removeDupStatesAux_fixed t.rows.length t le_rfl

theorem removeDuplicateStates_of_none (t : MinTable)
    (h : findDuplicateState t = none) : removeDuplicateStates t = (t, 0) := by
  unfold removeDuplicateStates
  cases hl : t.rows.length with
  | zero => rfl
  | succ n => simp [removeDupStatesAux, h]

theorem removeDuplicateStates_count_zero (t : MinTable)
    (h : (removeDuplicateStates t).2 = 0) : removeDuplicateStates t = (t, 0) := by
  have h1 := removeDupStatesAux_count_zero t.rows.length t h
  unfold removeDuplicateStates at *
  exact Prod.ext h1 h

theorem removeDuplicateStates_numCols (t : MinTable) :
    (removeDuplicateStates t).1.numCols = t.numCols :=
  removeDupStatesAux_numCols t.rows.length t

theorem removeDuplicateStates_rows (t : MinTable) :
    (removeDuplicateStates t).1.rows.length + (removeDuplicateStates t).2
      = t.rows.length :=
  removeDupStatesAux_rows t.rows.length t

theorem rowLoopAux_numCols (fuel : Nat) (t : MinTable) :
    (rowLoopAux fuel t).1.numCols = t.numCols := by
  induction fuel generalizing t with
  | zero => rfl
  | succ f ih =>
    simp only [rowLoopAux]
    split
    · rw [ih]
      exact removeDuplicateStates_numCols t
    · rfl

theorem rowLoop_numCols (t : MinTable) :
    (rowLoop t).1.numCols = t.numCols :=
  rowLoopAux_numCols 2 t

theorem rowLoop_false (t : MinTable) (h : (rowLoop t).2 = false) :
    (rowLoop t).1 = t ∧ removeDuplicateStates t = (t, 0) := by
  unfold rowLoop at *
  have he : rowLoopAux 2 t
      = (if (removeDuplicateStates t).2 > 0
         then ((rowLoopAux 1 (removeDuplicateStates t).1).1, true)
         else (t, false)) := rfl
  rw [he] at h ⊢
  split at h
  · simp at h
  · rename_i hc
    rw [if_neg hc]
    exact ⟨rfl, removeDuplicateStates_count_zero t (by omega)⟩

theorem rowLoop_true (t : MinTable) (h : (rowLoop t).2 = true) :
    (rowLoop t).1 = (removeDuplicateStates t).1
    ∧ (removeDuplicateStates t).2 > 0 := by
  unfold rowLoop at *
  have he : rowLoopAux 2 t
      = (if (removeDuplicateStates t).2 > 0
         then ((rowLoopAux 1 (removeDuplicateStates t).1).1, true)
         else (t, false)) := rfl
  rw [he] at h ⊢
  split at h
  · rename_i hc
    have hfix := removeDuplicateStates_fixed t
    have hone : rowLoopAux 1 (removeDuplicateStates t).1
        = ((removeDuplicateStates t).1, false) := by
      have h1 : rowLoopAux 1 (removeDuplicateStates t).1
          = (if (removeDuplicateStates (removeDuplicateStates t).1).2 > 0
             then ((rowLoopAux 0
               (removeDuplicateStates (removeDuplicateStates t).1).1).1, true)
             else ((removeDuplicateStates t).1, false)) := rfl
      rw [h1, removeDuplicateStates_of_none _ hfix]
      simp
    rw [if_pos hc, hone]
    exact ⟨rfl, hc⟩
  · simp at h

theorem rowLoop_rows_le (t : MinTable) :
    (rowLoop t).1.rows.length ≤ t.rows.length := by
  cases hb : (rowLoop t).2 with
  | false =>
    rw [(rowLoop_false t hb).1]
  | true =>
    rw [(rowLoop_true t hb).1]
    have := removeDuplicateStates_rows t
    omega

theorem colLoopAux_rows (fuel : Nat) (start : Nat) (t : MinTable) :
    (colLoopAux fuel start t).1.rows.length = t.rows.length := by
  induction fuel generalizing start t with
  | zero => rfl
  | succ f ih =>
    cases hf : findDuplCharClassFrom t start with
    | none => simp [colLoopAux, hf]
    | some p =>
      cases p with
      | mk i j =>
        simp only [colLoopAux, hf]
        rw [ih]
        exact removeColumn_rows_length t j

theorem colLoopAux_numCols (fuel : Nat) (start : Nat) (t : MinTable) :
    (colLoopAux fuel start t).1.numCols + (colLoopAux fuel start t).2.length
      = t.numCols := by
  induction fuel generalizing start t with
  | zero => simp [colLoopAux]
  | succ f ih =>
    cases hf : findDuplCharClassFrom t start with
    | none => simp [colLoopAux, hf]
    | some p =>
      cases p with
      | mk i j =>
        have hj := (findDuplCharClassFrom_some t start i j hf).2.2.1
        simp only [colLoopAux, hf, List.length_cons]
        have := ih i (removeColumn t j)
        have hrc : (removeColumn t j).numCols = t.numCols - 1 := rfl
        rw [hrc] at this
        omega

theorem colLoopAux_trace (fuel : Nat) :
    ∀ (start : Nat) (t : MinTable) (p : Nat × Nat),
      p ∈ (colLoopAux fuel start t).2 → start ≤ p.1 ∧ p.1 < p.2 := by
  induction fuel with
  | zero => intro start t p hp; simp [colLoopAux] at hp
  | succ f ih =>
    intro start t p hp
    cases hf : findDuplCharClassFrom t start with
    | none => simp [colLoopAux, hf] at hp
    | some q =>
      cases q with
      | mk i j =>
        have hq := findDuplCharClassFrom_some t start i j hf
        simp only [colLoopAux, hf] at hp
        rw [List.mem_cons] at hp
        rcases hp with rfl | hp
        · exact ⟨hq.1, hq.2.1⟩
        · have := ih i (removeColumn t j) p hp
          omega

theorem colLoopAux_nil (fuel : Nat) (start : Nat) (t : MinTable)
    (h : (colLoopAux fuel start t).2 = []) :
    (colLoopAux fuel start t).1 = t := by
  cases fuel with
  | zero => rfl
  | succ f =>
    cases hf : findDuplCharClassFrom t start with
    | none => simp [colLoopAux, hf]
    | some p =>
      cases p with
      | mk i j => simp [colLoopAux, hf] at h

theorem colLoop_nil_find (t : MinTable) (h : (colLoop t).2 = []) :
    findDuplCharClassFrom t 3 = none := by
  unfold colLoop at h
  cases hn : t.numCols with
  | zero => exact findDuplCharClassFrom_zero_cols t 3 hn
  | succ k =>
    rw [hn] at h
    cases hf : findDuplCharClassFrom t 3 with
    | none => rfl
    | some p =>
      cases p with
      | mk i j => simp [colLoopAux, hf] at h

theorem optimizePass_false (t : MinTable) (h : (optimizePass t).2.2 = false) :
    (optimizePass t).1 = t ∧ (optimizePass t).2.1 = []
    ∧ findDuplCharClassFrom t 3 = none
    ∧ removeDuplicateStates t = (t, 0) := by
  have e1 : (optimizePass t).1 = (rowLoop (colLoop t).1).1 := rfl
  have e2 : (optimizePass t).2.1 = (colLoop t).2 := rfl
  have e3 : (optimizePass t).2.2
      = (!(colLoop t).2.isEmpty || (rowLoop (colLoop t).1).2) := rfl
  rw [e3, Bool.or_eq_false_iff] at h
  obtain ⟨h1, h2⟩ := h
  have hisEmpty : (colLoop t).2.isEmpty = true := by
    cases hE : (colLoop t).2.isEmpty with
    | true => rfl
    | false => rw [hE] at h1; simp at h1
  have hnil : (colLoop t).2 = [] := List.isEmpty_iff.mp hisEmpty
  have htab : (colLoop t).1 = t := colLoopAux_nil t.numCols 3 t hnil
  have hfind := colLoop_nil_find t hnil
  have hrow := rowLoop_false (colLoop t).1 h2
  rw [htab] at hrow
  refine ⟨?_, ?_, hfind, hrow.2⟩
  · rw [e1, htab]
    exact hrow.1
  · rw [e2]
    exact hnil

theorem optimizePass_true_measure (t : MinTable)
    (h : (optimizePass t).2.2 = true) :
    tableMeasure (optimizePass t).1 < tableMeasure t := by
  have e1 : (optimizePass t).1 = (rowLoop (colLoop t).1).1 := rfl
  have e3 : (optimizePass t).2.2
      = (!(colLoop t).2.isEmpty || (rowLoop (colLoop t).1).2) := rfl
  have hcN : (colLoop t).1.numCols + (colLoop t).2.length = t.numCols :=
    colLoopAux_numCols t.numCols 3 t
  have hcR : (colLoop t).1.rows.length = t.rows.length :=
    colLoopAux_rows t.numCols 3 t
  have hrN := rowLoop_numCols (colLoop t).1
  have hrR := rowLoop_rows_le (colLoop t).1
  rw [e3, Bool.or_eq_true] at h
  rw [e1]
  unfold tableMeasure
  rcases h with h | h
  · have hne : (colLoop t).2 ≠ [] := by
      intro hnil
      rw [hnil] at h
      simp at h
    have hlen : 1 ≤ (colLoop t).2.length := by
      cases hl : (colLoop t).2 with
      | nil => exact absurd hl hne
      | cons a l => simp
    omega
  · have hrow := rowLoop_true (colLoop t).1 h
    have hcount := removeDuplicateStates_rows (colLoop t).1
    rw [hrow.1]
    have h2 := hrow.2
    have hN2 : (removeDuplicateStates (colLoop t).1).1.numCols
        = (colLoop t).1.numCols := removeDuplicateStates_numCols _
    omega

theorem optLoopAux_succ (f : Nat) (t : MinTable) :
    optLoopAux (f + 1) t
      = (if (optimizePass t).2.2
         then ((optLoopAux f (optimizePass t).1).1,
               (optimizePass t).2.1 ++ (optLoopAux f (optimizePass t).1).2.1,
               (optLoopAux f (optimizePass t).1).2.2 + 1)
         else ((optimizePass t).1, (optimizePass t).2.1, 1)) := rfl

theorem optLoopAux_fixed (fuel : Nat) :
    ∀ t : MinTable, tableMeasure t + 1 ≤ fuel →
      findDuplCharClassFrom (optLoopAux fuel t).1 3 = none
      ∧ removeDuplicateStates (optLoopAux fuel t).1
          = ((optLoopAux fuel t).1, 0) := by
  induction fuel with
  | zero => intro t ht; omega
  | succ f ih =>
    intro t ht
    cases hp : (optimizePass t).2.2 with
    | true =>
      have hm := optimizePass_true_measure t hp
      rw [optLoopAux_succ, if_pos hp]
      exact ih (optimizePass t).1 (by omega)
    | false =>
      rw [optLoopAux_succ, if_neg (by simp [hp])]
      have hfix := optimizePass_false t hp
      rw [hfix.1]
      exact ⟨hfix.2.2.1, hfix.2.2.2⟩

theorem optLoopAux_trace (fuel : Nat) :
    ∀ (t : MinTable) (p : Nat × Nat), p ∈ (optLoopAux fuel t).2.1 →
      3 ≤ p.1 ∧ p.1 < p.2 := by
  induction fuel with
  | zero => intro t p hp; simp [optLoopAux] at hp
  | succ f ih =>
    intro t p hp
    have hcol : ∀ q : Nat × Nat, q ∈ (colLoop t).2 → 3 ≤ q.1 ∧ q.1 < q.2 :=
      fun q hq => colLoopAux_trace t.numCols 3 t q hq
    have epass : (optimizePass t).2.1 = (colLoop t).2 := rfl
    cases hpf : (optimizePass t).2.2 with
    | true =>
      rw [optLoopAux_succ, if_pos hpf] at hp
      simp only [List.mem_append] at hp
      rcases hp with hp | hp
      · exact hcol p (by rw [← epass]; exact hp)
      · exact ih (optimizePass t).1 p hp
    | false =>
      rw [optLoopAux_succ, if_neg (by simp [hpf])] at hp
      exact hcol p (by rw [← epass]; exact hp)

theorem optLoopAux_fuel_irrel (f : Nat) :
    ∀ (g : Nat) (t : MinTable),
      tableMeasure t + 1 ≤ f → tableMeasure t + 1 ≤ g →
      optLoopAux f t = optLoopAux g t := by
  induction f with
  | zero => intro g t hf hg; omega
  | succ f ih =>
    intro g t hf hg
    cases g with
    | zero => omega
    | succ g =>
      cases hp : (optimizePass t).2.2 with
      | false =>
        rw [optLoopAux_succ f t, optLoopAux_succ g t,
          if_neg (by simp [hp]), if_neg (by simp [hp])]
      | true =>
        have hm := optimizePass_true_measure t hp
        rw [optLoopAux_succ f t, optLoopAux_succ g t, if_pos hp, if_pos hp,
          ih g (optimizePass t).1 (by omega) (by omega)]

theorem optLoopAux_passes (fuel : Nat) :
    ∀ t : MinTable, (optLoopAux fuel t).2.2 ≤ fuel := by
  induction fuel with
  | zero => intro t; exact le_refl 0
  | succ f ih =>
    intro t
    cases hp : (optimizePass t).2.2 with
    | true =>
      rw [optLoopAux_succ, if_pos hp]
      have := ih (optimizePass t).1
      simpa using Nat.add_le_add_right this 1
    | false =>
      rw [optLoopAux_succ, if_neg (by simp [hp])]
      show 1 ≤ f + 1
      omega

/-- C4: when `optimizeTables` returns, the table is at a fixed point: no pair
of distinct character-category columns considered by the de-duplication pass
(both at/after the reserved indices, i.e. lower index at least 3) has
identical transitions across every state, and a further row-merge pass
(`removeDuplicateStates`) finds zero mergeable states and leaves the table
unchanged. -/
theorem optimizeTables_fixedPoint (t : MinTable) :
    (∀ i j, 3 ≤ i → i < j → j < (optimizeTables t).1.numCols →
      colsEqual (optimizeTables t).1 i j = false)
    ∧ removeDuplicateStates (optimizeTables t).1
        = ((optimizeTables t).1, 0) := by
  have h := optLoopAux_fixed (tableMeasure t + 1) t le_rfl
  exact ⟨fun i j h1 h2 h3 =>
    findDuplCharClassFrom_none (optimizeTables t).1 3 h.1 i j h1 h2 h3, h.2⟩

/-- Witness: on the concrete 6-category table, the minimized table has no
duplicate columns at/after index 3 and no mergeable rows. -/
theorem optimizeTables_fixedPoint_witness :
    colsEqual (optimizeTables exTable).1 3 4 = false
    ∧ removeDuplicateStates (optimizeTables exTable).1
        = ((optimizeTables exTable).1, 0) :=
  ⟨(optimizeTables_fixedPoint exTable).1 3 4 (by decide) (by decide) (by decide),
   (optimizeTables_fixedPoint exTable).2⟩

/-- C5: the duplicate-column search always starts at category 3, so reserved
categories 0, 1 and 2 never appear as the folded-away (second) side of any
category merge passed to `mergeCategories`/`removeColumn`. -/
theorem optimizeTables_reservedCategories (t : MinTable) (p : Nat × Nat)
    (hp : p ∈ (optimizeTables t).2.1) :
    p.2 ≠ 0 ∧ p.2 ≠ 1 ∧ p.2 ≠ 2 := by
  have h := optLoopAux_trace (tableMeasure t + 1) t p hp
  omega

/-- Witness: the single merge the concrete table performs folds category 4
(not a reserved category) into category 3. -/
theorem optimizeTables_reservedCategories_witness :
    ((3, 4) : Nat × Nat).2 ≠ 0 ∧ ((3, 4) : Nat × Nat).2 ≠ 1
    ∧ ((3, 4) : Nat × Nat).2 ≠ 2 :=
  optimizeTables_reservedCategories exTable (3, 4) (by decide)

/-- C6: the outer minimization loop terminates on every input table: the
category count plus state count strictly decreases on every pass that merged
anything, so `tableMeasure t + 1` passes always suffice — any larger fuel
computes the same result, and the number of passes executed is bounded by
`tableMeasure t + 1`. -/
theorem optimizeTables_terminates (t : MinTable) (fuel : Nat)
    (h : tableMeasure t + 1 ≤ fuel) :
    optLoopAux fuel t = optimizeTables t
    ∧ (optimizeTables t).2.2 ≤ tableMeasure t + 1 :=
  ⟨optLoopAux_fuel_irrel fuel (tableMeasure t + 1) t h le_rfl,
   optLoopAux_passes (tableMeasure t + 1) t⟩

/-- Witness: on the concrete table extra fuel changes nothing and the pass
count is within the bound. -/
theorem optimizeTables_terminates_witness :
    optLoopAux (tableMeasure exTable + 2) exTable = optimizeTables exTable
    ∧ (optimizeTables exTable).2.2 ≤ tableMeasure exTable + 1 :=
  optimizeTables_terminates exTable (tableMeasure exTable + 2) (by omega)

/-- C7: compilation is deterministic: two runs of the pipeline with the same
rule text (hence the same collaborator behaviour and starting status) produce
identical outputs, including byte-identical blobs; within each outer
minimization pass column de-duplication runs before row de-duplication, and
every category merge folds the higher index into the lower one. -/
theorem build_deterministic (e1 e2 : BuildEnv) (s1 s2 : Int) (t : MinTable)
    (henv : e1 = e2) (hst : s1 = s2) :
    build e1 s1 = build e2 s2
    ∧ (optimizePass t).1 = (rowLoop (colLoop t).1).1
    ∧ ∀ p : Nat × Nat, p ∈ (optimizeTables t).2.1 → p.1 < p.2 := by
  subst henv
  subst hst
  exact ⟨rfl, rfl,
    fun p hp => (optLoopAux_trace (tableMeasure t + 1) t p hp).2⟩

/-- Witness: two runs on the concrete environment agree, and the concrete
merge folds 4 into 3. -/
theorem build_deterministic_witness :
    build exBuildEnv 0 = build exBuildEnv 0
    ∧ (optimizePass exTable).1 = (rowLoop (colLoop exTable).1).1
    ∧ ((3, 4) : Nat × Nat).1 < ((3, 4) : Nat × Nat).2 :=
  ⟨(build_deterministic exBuildEnv exBuildEnv 0 0 exTable rfl rfl).1,
   (build_deterministic exBuildEnv exBuildEnv 0 0 exTable rfl rfl).2.1,
   (build_deterministic exBuildEnv exBuildEnv 0 0 exTable rfl rfl).2.2
     (3, 4) (by decide)⟩

theorem flattenData_of_failure (inp : FlatIn) (st : Int)
    (h : U_FAILURE st = true) : flattenData inp st = (none, st) := by
  simp [flattenData, h]

theorem build_result_none_of_failure (env : BuildEnv) (s0 : Int)
    (h : U_FAILURE (build env s0).status = true) :
    (build env s0).result = none := by
  simp only [build] at h ⊢
  split_ifs at h ⊢ <;> simp_all

theorem build_trace_failure (env : BuildEnv) (s0 : Int)
    (hfp : FailPreserving env) (s : Int)
    (hs : s ∈ (build env s0).statusTrace) (hfail : U_FAILURE s = true) :
    (build env s0).result = none := by
  obtain ⟨fp1, fp2, fp3, fp4, fp5⟩ := hfp
  simp only [build] at hs ⊢
  split_ifs at hs ⊢ with h1 h2 h3 h4 <;> try rfl
  exfalso
  set a1 := env.parseEff s0 with ha1
  set a2 := env.buildRangesEff a1 with ha2
  set a3 := env.buildForwardEff a2 with ha3
  set a4 := env.safeRevEff a3 with ha4
  set a5 := env.buildTrieEff a4 with ha5
  have hn0 : U_FAILURE s0 = false := by simpa using h1
  have hn1 : U_FAILURE a1 = false := by simpa using h2
  have hnflat : U_FAILURE (flattenData env.flatIn a5).2 = false := by
    simpa using h4
  have hn5 : U_FAILURE a5 = false := by
    cases hcc : U_FAILURE a5 with
    | false => rfl
    | true =>
      rw [flattenData_of_failure env.flatIn a5 hcc] at hnflat
      simp [hcc] at hnflat
  have hn4 : U_FAILURE a4 = false := by
    cases hcc : U_FAILURE a4 with
    | false => rfl
    | true =>
      have hx := fp5 a4 hcc
      rw [← ha5] at hx
      simp [hx] at hn5
  have hn3 : U_FAILURE a3 = false := by
    cases hcc : U_FAILURE a3 with
    | false => rfl
    | true =>
      have hx := fp4 a3 hcc
      rw [← ha4] at hx
      simp [hx] at hn4
  have hn2 : U_FAILURE a2 = false := by
    cases hcc : U_FAILURE a2 with
    | false => rfl
    | true =>
      have hx := fp3 a2 hcc
      rw [← ha3] at hx
      simp [hx] at hn3
  simp only [List.mem_cons, List.not_mem_nil, or_false] at hs
  rcases hs with rfl | rfl | rfl | rfl | rfl | rfl | rfl
  · simp [hfail] at hn0
  · simp [hfail] at hn1
  · simp [hfail] at hn2
  · simp [hfail] at hn3
  · simp [hfail] at hn4
  · simp [hfail] at hn5
  · simp [hfail] at hnflat

theorem createRBBI_none_of_failure (env : FactoryEnv)
    (parseErr : Option UParseError) (s0 : Int)
    (h : U_FAILURE (createRuleBasedBreakIterator env parseErr s0).2 = true) :
    (createRuleBasedBreakIterator env parseErr s0).1 = none := by
  simp only [createRuleBasedBreakIterator] at h ⊢
  split_ifs at h ⊢ <;> simp_all

/-- C8: on every failure path both `build()` and the factory
`createRuleBasedBreakIterator()` return null, never a partially-filled blob
or matcher: a failure status already present or arising at any pipeline step
(under the spec's fail-stop collaborator discipline) makes the final result
null, and when matcher construction itself fails the half-built matcher is
deleted and null is returned with that failure. -/
theorem pipeline_failure_returns_null (env : FactoryEnv)
    (parseErr : Option UParseError) (s0 : Int)
    (hfp : FailPreserving env.buildEnv) :
    (U_FAILURE (build env.buildEnv s0).status = true →
      (build env.buildEnv s0).result = none)
    ∧ (∀ s ∈ (build env.buildEnv s0).statusTrace, U_FAILURE s = true →
        (build env.buildEnv s0).result = none)
    ∧ (U_FAILURE (createRuleBasedBreakIterator env parseErr s0).2 = true →
        (createRuleBasedBreakIterator env parseErr s0).1 = none) :=
  ⟨build_result_none_of_failure env.buildEnv s0,
   fun s hs hf => build_trace_failure env.buildEnv s0 hfp s hs hf,
   createRBBI_none_of_failure env parseErr s0⟩

/-- Witness: with a scanner that reports a syntax failure, both the build and
the factory return null. -/
theorem pipeline_failure_returns_null_witness :
    (build exFailEnv.buildEnv 0).result = none
    ∧ (createRuleBasedBreakIterator exFailEnv none 0).1 = none :=
  ⟨(pipeline_failure_returns_null exFailEnv none 0
      ⟨fun _ _ => rfl, fun _ h => h, fun _ h => h,
       fun _ h => h, fun _ h => h⟩).1 (by decide),
   (pipeline_failure_returns_null exFailEnv none 0
      ⟨fun _ _ => rfl, fun _ h => h, fun _ h => h,
       fun _ h => h, fun _ h => h⟩).2.2 (by decide)⟩

/-- C9: with a failure status pre-set, the constructor performs none of the
four allocations (every owning field stays null) — but destroying that
never-populated instance is not safe: the destructor's first loop calls
`fUSetNodes->elementAt(i)` on the null `fUSetNodes`, a null-pointer
dereference, reported by the destructor model as `none`. -/
theorem ctor_failFast_teardown :
    (rbbiRuleBuilderCtor exCtorEnv none 1).1 = emptyBuilderState
    ∧ (rbbiRuleBuilderCtor exCtorEnv none 1).1.fUSetNodes = none
    ∧ rbbiRuleBuilderDtor (rbbiRuleBuilderCtor exCtorEnv none 1).1 = none := by
  decide

/-- C10: the parse-error descriptor, when supplied, is zero-filled before the
pre-existing-failure check, so it is cleared for every starting status. -/
theorem ctor_clears_parseError (env : CtorEnv) (d : UParseError) (s0 : Int) :
    (rbbiRuleBuilderCtor env (some d) s0).2.1 = some emptyParseError := by
  simp only [rbbiRuleBuilderCtor]
  split_ifs <;> rfl
